import Mathlib

/-!
Verification of the NiraCare pipeline (files `niracare_agents.py` and
`niracare_pipeline.py`).

Modelling conventions (shallow embedding):
* Python `str` values are modelled as `List Char`.
* `json.loads` is modelled by `jsonLoads`, a recursive-descent parser for the
  JSON grammar accepted by Python's `json` module with default settings
  (objects, arrays, strings with escapes, numbers, `true`/`false`/`null`, and
  the non-standard constants `NaN`/`Infinity`/`-Infinity`; duplicate object
  keys resolved last-value-wins at the first occurrence's position; trailing
  data after the first value is an error).  Numbers are kept as their source
  literals (`JValue.jnum`); no claim compares numeric values, so no
  floating-point semantics is needed.  Lone surrogate `\u` escapes, which
  CPython admits into `str`, parse successfully here too; being
  unrepresentable in `Char` they are stored as a placeholder character, so
  only the identity of such string values is approximate; no claim involves
  them.
* Exceptions are modelled with `Except`; `PipeErr` distinguishes the error
  kinds named by the specification.
-/

namespace NiraCare

/-- Whitespace for Python `str.strip()`: the characters CPython's
`str.isspace` recognises (`\t`-`\r`, `\x1c`-`\x1f`, space, next line,
no-break space, and the Unicode space-category characters). -/
def isPyWs (c : Char) : Bool :=
  ('\t' ≤ c && c ≤ '\r') || ('\x1c' ≤ c && c ≤ '\x1f') || c = ' ' || c = '\x85' ||
    c = '\xa0' || c = '\u1680' || ('\u2000' ≤ c && c ≤ '\u200a') || c = '\u2028' ||
    c = '\u2029' || c = '\u202f' || c = '\u205f' || c = '\u3000'

/-- Python `s.strip()`: remove leading and trailing whitespace. -/
def pyStrip (s : List Char) : List Char :=
  List.rdropWhile isPyWs (List.dropWhile isPyWs s)

/-- Whitespace skipped by Python's `json` scanner (exactly these four). -/
def isJsonWs (c : Char) : Bool :=
  c = ' ' || c = '\t' || c = '\n' || c = '\r'

def skipWs (s : List Char) : List Char := List.dropWhile isJsonWs s

/-- Parsed JSON values (the result type of `json.loads`). -/
inductive JValue where
  | jnull : JValue
  | jbool : Bool → JValue
  | jnum : List Char → JValue
  | jstr : List Char → JValue
  | jarr : List JValue → JValue
  | jobj : List (List Char × JValue) → JValue
deriving Repr

/-- Lookup in an association list modelling a Python `dict`
(`d[k]` / `d.get(k)`; keys are unique by construction). -/
def dictGet {β : Type} (k : List Char) : List (List Char × β) → Option β
  | [] => none
  | p :: rest => if p.1 = k then some p.2 else dictGet k rest

/-- Python `d.get(k, default)`. -/
def dictGetD {β : Type} (k : List Char) (d : List (List Char × β)) (dflt : β) : β :=
  (dictGet k d).getD dflt

/-- Python `d[k] = v` on a `dict`: overwrite in place if the key exists
(keeping its position), otherwise append. -/
def dictInsert {β : Type} (d : List (List Char × β)) (k : List Char) (v : β) :
    List (List Char × β) :=
  match d with
  | [] => [(k, v)]
  | p :: rest => if p.1 = k then (k, v) :: rest else p :: dictInsert rest k v

def hexVal (c : Char) : Option Nat :=
  if c.isDigit then some (c.toNat - 48)
  else if 'a' ≤ c && c ≤ 'f' then some (c.toNat - 87)
  else if 'A' ≤ c && c ≤ 'F' then some (c.toNat - 55)
  else none

def hex4 (a b c d : Char) : Option Nat := do
  let x ← hexVal a
  let y ← hexVal b
  let z ← hexVal c
  let w ← hexVal d
  some (x * 4096 + y * 256 + z * 16 + w)

/-- Body of a JSON string, after the opening quote: returns the decoded
characters and the remaining input after the closing quote.  Strict mode:
unescaped control characters are rejected.  A `\uXXXX` escape outside the
surrogate range decodes to the corresponding character; a high surrogate
immediately followed by a low-surrogate escape combines into one
character; any other surrogate escape parses successfully, as in CPython,
where it stays in the `str` as a lone surrogate — unrepresentable in
`Char`, so it is stored as the `Char.ofNat` placeholder (success and
failure match CPython exactly; only the identity of such values is
approximated, and no claim involves them). -/
def parseStringBody : List Char → Option (List Char × List Char)
  | [] => none
  | c :: rest =>
    if c = '"' then some ([], rest)
    else if c = '\\' then
      match rest with
      | [] => none
      | e :: rest2 =>
        if e = '"' then (parseStringBody rest2).map (fun p => ('"' :: p.1, p.2))
        else if e = '\\' then (parseStringBody rest2).map (fun p => ('\\' :: p.1, p.2))
        else if e = '/' then (parseStringBody rest2).map (fun p => ('/' :: p.1, p.2))
        else if e = 'b' then (parseStringBody rest2).map (fun p => ('\x08' :: p.1, p.2))
        else if e = 'f' then (parseStringBody rest2).map (fun p => ('\x0c' :: p.1, p.2))
        else if e = 'n' then (parseStringBody rest2).map (fun p => ('\n' :: p.1, p.2))
        else if e = 'r' then (parseStringBody rest2).map (fun p => ('\r' :: p.1, p.2))
        else if e = 't' then (parseStringBody rest2).map (fun p => ('\t' :: p.1, p.2))
        else if e = 'u' then
          match rest2 with
          | a :: b :: c2 :: d :: rest3 =>
            match hex4 a b c2 d with
            | none => none
            | some h =>
              let asLone := (parseStringBody rest3).map (fun p => (Char.ofNat h :: p.1, p.2))
              if 0xD800 ≤ h ∧ h ≤ 0xDBFF then
                match rest3 with
                | '\\' :: 'u' :: a2 :: b2 :: c3 :: d2 :: rest4 =>
                  match hex4 a2 b2 c3 d2 with
                  | none => asLone
                  | some lo =>
                    if 0xDC00 ≤ lo ∧ lo ≤ 0xDFFF then
                      (parseStringBody rest4).map (fun p =>
                        (Char.ofNat (0x10000 + (h - 0xD800) * 0x400 + (lo - 0xDC00)) :: p.1,
                          p.2))
                    else asLone
                | _ => asLone
              else asLone
          | _ => none
        else none
    else if c.toNat < 0x20 then none
    else (parseStringBody rest).map (fun p => (c :: p.1, p.2))

/-- The optional fractional part of the JSON number grammar (`(\.\d+)?`):
consumed only when a dot followed by at least one digit is present. -/
def fracPart (r : List Char) : List Char × List Char :=
  match r with
  | '.' :: r1 =>
    let ds := r1.takeWhile Char.isDigit
    if ds.isEmpty then ([], r) else ('.' :: ds, r1.drop ds.length)
  | _ => ([], r)

/-- The optional exponent part of the JSON number grammar (`([eE][-+]?\d+)?`). -/
def expPart (r : List Char) : List Char × List Char :=
  match r with
  | e :: r1 =>
    if e = 'e' || e = 'E' then
      let (sgn, r2) : List Char × List Char :=
        match r1 with
        | c :: r2' => if c = '+' || c = '-' then ([c], r2') else ([], r1)
        | [] => ([], r1)
      let ds := r2.takeWhile Char.isDigit
      if ds.isEmpty then ([], r) else (e :: (sgn ++ ds), r2.drop ds.length)
    else ([], r)
  | [] => ([], r)

/-- The JSON number regex `(-?(?:0|[1-9]\d*))(\.\d+)?([eE][-+]?\d+)?`:
returns the matched literal and the rest, or `none` when no match starts
here. -/
def parseNumLit (s : List Char) : Option (List Char × List Char) :=
  let (sign, s1) : List Char × List Char :=
    match s with
    | '-' :: r => (['-'], r)
    | _ => ([], s)
  match s1 with
  | [] => none
  | c :: r =>
    if c = '0' then
      let (f, r2) := fracPart r
      let (e, r3) := expPart r2
      some (sign ++ '0' :: (f ++ e), r3)
    else if c.isDigit then
      let ds := r.takeWhile Char.isDigit
      let (f, r2) := fracPart (r.drop ds.length)
      let (e, r3) := expPart r2
      some (sign ++ c :: (ds ++ (f ++ e)), r3)
    else none

def isPrefixAnd {α : Type} (pre s : List Char) (k : List Char → α) : Option α :=
  if pre.isPrefixOf s then some (k (s.drop pre.length)) else none

mutual

/-- One JSON value starting at the head of the input (no leading
whitespace), mirroring the scanner of Python's `json` module; returns the
value and the remaining input. -/
def parseValue : Nat → List Char → Option (JValue × List Char)
  | 0, _ => none
  | Nat.succ fuel, s =>
    match s with
    | [] => none
    | c :: rest =>
      if c = '"' then (parseStringBody rest).map (fun p => (.jstr p.1, p.2))
      else if c = '{' then
        match skipWs rest with
        | '}' :: r => some (.jobj [], r)
        | r => (parseMembers fuel [] r).map (fun p => (.jobj p.1, p.2))
      else if c = '[' then
        match skipWs rest with
        | ']' :: r => some (.jarr [], r)
        | r => (parseElems fuel r).map (fun p => (.jarr p.1, p.2))
      else if c = 'n' then isPrefixAnd ['u', 'l', 'l'] rest (fun r => (.jnull, r))
      else if c = 't' then isPrefixAnd ['r', 'u', 'e'] rest (fun r => (.jbool true, r))
      else if c = 'f' then isPrefixAnd ['a', 'l', 's', 'e'] rest (fun r => (.jbool false, r))
      else if c = 'N' then isPrefixAnd ['a', 'N'] rest (fun r => (.jnum ['N', 'a', 'N'], r))
      else if c = 'I' then
        isPrefixAnd ['n', 'f', 'i', 'n', 'i', 't', 'y'] rest
          (fun r => (.jnum ['I', 'n', 'f', 'i', 'n', 'i', 't', 'y'], r))
      else
        match parseNumLit s with
        | some p => some (.jnum p.1, p.2)
        | none =>
          if c = '-' then
            isPrefixAnd ['I', 'n', 'f', 'i', 'n', 'i', 't', 'y'] rest
              (fun r => (.jnum ['-', 'I', 'n', 'f', 'i', 'n', 'i', 't', 'y'], r))
          else none

/-- Comma-separated array elements up to the closing bracket (the
empty-array case is handled by the caller). -/
def parseElems : Nat → List Char → Option (List JValue × List Char)
  | 0, _ => none
  | Nat.succ fuel, s =>
    match parseValue fuel s with
    | none => none
    | some (v, r) =>
      match skipWs r with
      | ',' :: r2 => (parseElems fuel (skipWs r2)).map (fun p => (v :: p.1, p.2))
      | ']' :: r2 => some ([v], r2)
      | _ => none

/-- Members of a JSON object after the opening brace (the empty-object case
is handled by the caller); keys must be quoted strings; the accumulated
`dict` resolves duplicate keys like Python (last value wins, first
position kept). -/
def parseMembers : Nat → List (List Char × JValue) → List Char →
    Option (List (List Char × JValue) × List Char)
  | 0, _, _ => none
  | Nat.succ fuel, acc, s =>
    match s with
    | '"' :: r =>
      match parseStringBody r with
      | none => none
      | some (k, r1) =>
        match skipWs r1 with
        | ':' :: r2 =>
          match parseValue fuel (skipWs r2) with
          | none => none
          | some (v, r3) =>
            let acc' := dictInsert acc k v
            match skipWs r3 with
            | ',' :: r4 => parseMembers fuel acc' (skipWs r4)
            | '}' :: r4 => some (acc', r4)
            | _ => none
        | _ => none
    | _ => none

end

/-- Python `json.loads`: skip leading whitespace, decode one value, skip
trailing whitespace, and require the input to be exhausted ("Extra data"
otherwise).  `none` models `json.JSONDecodeError`. -/
def jsonLoads (s : List Char) : Option JValue :=
  match parseValue (2 * s.length + 2) (skipWs s) with
  | some (v, r) => if skipWs r = [] then some v else none
  | none => none

/-! ## The Response Normalizer (`_extract_json_from_response`) -/

/-- Error kinds of the pipeline, as named by the specification.
`emptyResponse` and `formatError` are the two `ValueError`s raised by the
agents module (`formatError` carries the truncated preview of the offending
text); `attrError` and `typeError` model the `AttributeError` / `TypeError`
CPython raises when a parsed value does not have the shape an attribute
access or iteration expects; `serviceError` stands for any other exception
escaping the model SDK call. -/
inductive PipeErr where
  | emptyResponse : PipeErr
  | formatError : List Char → PipeErr
  | attrError : PipeErr
  | typeError : PipeErr
  | serviceError : Nat → PipeErr
deriving Repr, DecidableEq

/-- Lines 93-96 of `niracare_agents.py`: strip a leading (optionally
`json`-tagged) code-fence marker. -/
def fenceOpen (r0 : List Char) : List Char :=
  if List.isPrefixOf ['`', '`', '`', 'j', 's', 'o', 'n'] r0 then r0.drop 7
  else if List.isPrefixOf ['`', '`', '`'] r0 then r0.drop 3
  else r0

/-- Lines 98-99: strip a trailing code-fence marker. -/
def fenceClose (r1 : List Char) : List Char :=
  if List.isSuffixOf ['`', '`', '`'] r1 then r1.take (r1.length - 3) else r1

/-- Lines 93-99: both fence-stripping steps. -/
def fenceBody (r0 : List Char) : List Char := fenceClose (fenceOpen r0)

/-- Prose free of both brace characters. -/
def braceFree (l : List Char) : Prop := '{' ∉ l ∧ '}' ∉ l

/-- A reply wrapped in fenced-code markers with the `json` tag. -/
def wrapJson (s : List Char) : List Char :=
  ['`', '`', '`', 'j', 's', 'o', 'n', '\n'] ++ s ++ ['\n', '`', '`', '`']

/-- Lines 104-108: slice from the first `{` to the last `}` when both exist
in that order (`response.find`, `response.rfind`, and the slice). -/
def braceSlice (r3 : List Char) : List Char :=
  match r3.findIdx? (fun c => decide (c = '{')),
      (r3.reverse.findIdx? (fun c => decide (c = '}'))).map
        (fun k => r3.length - 1 - k) with
  | some i, some j => if j > i then (r3.take (j + 1)).drop i else r3
  | _, _ => r3

/-- `_extract_json_from_response` (lines 77-116 of `niracare_agents.py`):
trim, strip code fences, re-trim, slice to the brace span, and decode;
a decode failure raises `ValueError` carrying the first 200 characters of
the candidate text (modelled as `PipeErr.formatError`, the specification's
`FormatError`). -/
def extract_json_from_response (response : List Char) : Except PipeErr JValue :=
  let r3 := pyStrip (fenceBody (pyStrip response))
  let r4 := braceSlice r3
  match jsonLoads r4 with
  | some v => .ok v
  | none => .error (.formatError (r4.take 200))

/-! ## Stage Functions

Each stage function takes the Model Service as an explicit argument: an
oracle that receives the stage's inputs and returns the reply text (an
empty reply models both an empty string and a `None` `response.text`), or
an exception escaping the SDK call.  The prompt templating of the source
only formats these same inputs into the prompt string and does not affect
any claim, so the oracle is keyed on the inputs themselves. -/

/-- `run_intake_agent` (lines 157-171 of `niracare_agents.py`). -/
def run_intake_agent (model : List Char → Except PipeErr (List Char))
    (raw_text : List Char) : Except PipeErr JValue := do
  let response_text ← model raw_text
  if response_text = [] then throw .emptyResponse
  else extract_json_from_response response_text

/-- `run_clarifier_agent` (lines 207-230). -/
def run_clarifier_agent (model : List Char → JValue → Except PipeErr (List Char))
    (raw_text : List Char) (intake_json : JValue) : Except PipeErr JValue := do
  let response_text ← model raw_text intake_json
  if response_text = [] then throw .emptyResponse
  else extract_json_from_response response_text

/-- `run_summary_agent` (lines 273-306): the one unstructured stage; its
reply is stripped, not normalized. -/
def run_summary_agent
    (model : List Char → JValue → List (List Char × List Char) → Except PipeErr (List Char))
    (raw_text : List Char) (intake_json : JValue)
    (clarifier_answers : List (List Char × List Char)) : Except PipeErr (List Char) := do
  let response_text ← model raw_text intake_json clarifier_answers
  if response_text = [] then throw .emptyResponse
  else pure (pyStrip response_text)

/-- `run_routing_agent` (lines 360-388). -/
def run_routing_agent (model : List Char → JValue → Except PipeErr (List Char))
    (raw_text : List Char) (intake_json : JValue) : Except PipeErr JValue := do
  let response_text ← model raw_text intake_json
  if response_text = [] then throw .emptyResponse
  else extract_json_from_response response_text

/-- `run_eval_agent` (lines 428-448). -/
def run_eval_agent (model : List Char → Except PipeErr (List Char))
    (doctor_note : List Char) : Except PipeErr JValue := do
  let response_text ← model doctor_note
  if response_text = [] then throw .emptyResponse
  else extract_json_from_response response_text

/-! ## Session Record and Pipeline Orchestrator -/

/-- The `NiraSession` dataclass of `niracare_pipeline.py` with its default
field values. -/
structure NiraSession where
  raw_text : List Char := []
  intake_json : JValue := .jobj []
  clarifier_questions : List (List Char) := []
  clarifier_answers : List (List Char × List Char) := []
  doctor_note : List Char := []
  routing_guidance : JValue := .jobj []
  eval_result : JValue := .jobj []
deriving Repr

/-- The five stage calls as seen by the orchestrator.  Instantiating each
field with the corresponding `run_*_agent` applied to a model oracle
recovers the source composition; keeping the fields abstract lets the
theorems quantify over every possible stage outcome, including exceptions
raised inside the SDK. -/
structure Agents where
  intake : List Char → Except PipeErr JValue
  clarifier : List Char → JValue → Except PipeErr JValue
  summary : List Char → JValue → List (List Char × List Char) → Except PipeErr (List Char)
  routing : List Char → JValue → Except PipeErr JValue
  evalNote : List Char → Except PipeErr JValue

def templateFor (question : List Char) : List Char :=
  ('D' :: 'e' :: 'm' :: 'o' :: ' ' :: 'a' :: 'n' :: 's' :: 'w' :: 'e' :: 'r' ::
    ' ' :: 'f' :: 'o' :: 'r' :: ':' :: ' ' :: []) ++ question

/-- `auto_answer_clarifier_questions` (lines 76-94 of
`niracare_pipeline.py`): one `dict` assignment per question, the value
being the fixed template referencing the question. -/
def auto_answer_clarifier_questions (questions : List (List Char)) :
    List (List Char × List Char) :=
  questions.foldl (fun answers question => dictInsert answers question (templateFor question)) []

def questionsKey : List Char := ['q', 'u', 'e', 's', 't', 'i', 'o', 'n', 's']
def symptomsKey : List Char := ['s', 'y', 'm', 'p', 't', 'o', 'm', 's']
def doctorsKey : List Char :=
  ['r', 'e', 'c', 'o', 'm', 'm', 'e', 'n', 'd', 'e', 'd', '_', 'd', 'o', 'c', 't', 'o', 'r', 's']
def testsKey : List Char :=
  ['p', 'o', 's', 's', 'i', 'b', 'l', 'e', '_', 't', 'e', 's', 't', '_',
    'c', 'a', 't', 'e', 'g', 'o', 'r', 'i', 'e', 's']

/-- Line 150 / line 299: `clarifier_output.get("questions", [])`.  A
non-`dict` output makes `.get` raise `AttributeError`.  The stored value is
then iterated as the question list; values other than a list of strings
are modelled as a `TypeError` here (CPython can proceed further with some
such exotic shapes — e.g. numeric questions become numeric `dict` keys —
before any difference is observable; no claim concerns them, every claim
below is about string question lists or the empty list). -/
def getQuestions (clarifier_output : JValue) : Except PipeErr (List (List Char)) :=
  match clarifier_output with
  | .jobj kvs =>
    match dictGetD questionsKey kvs (.jarr []) with
    | .jarr qs =>
      match qs.mapM (fun q => match q with | .jstr s => some s | _ => none) with
      | some strs => .ok strs
      | none => .error .typeError
    | _ => .error .typeError
  | _ => .error .attrError

/-- Is this value one CPython's `len` accepts (the sized JSON shapes)? -/
def sizedJ : JValue → Bool
  | .jstr _ => true
  | .jarr _ => true
  | .jobj _ => true
  | _ => false

def isObjJ : JValue → Bool
  | .jobj _ => true
  | _ => false

/-- Python truthiness of a parsed JSON value.  A number is falsy exactly
when every digit of its mantissa is `0`. -/
def pyTruthy : JValue → Bool
  | .jnull => false
  | .jbool b => b
  | .jnum lit =>
    !((lit.takeWhile (fun c => !(c = 'e' || c = 'E'))).all
        (fun c => c = '0' || c = '-' || c = '.'))
  | .jstr s => !s.isEmpty
  | .jarr xs => !xs.isEmpty
  | .jobj kvs => !kvs.isEmpty

/-- One render block of the routing section (lines 217-230): taken only if
the value is truthy, and requiring a list of `dict`s to print without
raising. -/
def blockOk (x : JValue) : Bool :=
  if pyTruthy x then
    match x with
    | .jarr es => es.all isObjJ
    | _ => false
  else true

/-- Do the `print`s of the routing `try` block (lines 215-236) complete
without raising?  They require the routing result to be a `dict` and each
rendered recommendation list to hold `dict`s; any exception there is caught
by the same `except` that absorbs a routing failure. -/
def routingPrintOk (rv : JValue) : Bool :=
  match rv with
  | .jobj kvs => blockOk (dictGetD doctorsKey kvs (.jarr [])) &&
      blockOk (dictGetD testsKey kvs (.jarr []))
  | _ => false

/-- Does the final summary print block (lines 266-269), which runs outside
every `try`, complete without raising?  It calls `.get` on the intake and
eval results (requiring `dict`s) and `len` on the symptom and doctor lists
(requiring sized values). -/
def finalPrints (s : NiraSession) : Option PipeErr :=
  match s.intake_json with
  | .jobj kvs =>
    if sizedJ (dictGetD symptomsKey kvs (.jarr [])) then
      match s.routing_guidance with
      | .jobj rkvs =>
        if sizedJ (dictGetD doctorsKey rkvs (.jarr [])) then
          match s.eval_result with
          | .jobj _ => none
          | _ => some .attrError
        else some .typeError
      | _ => some .attrError
    else some .typeError
  | _ => some .attrError

/-- `run_niracare_demo` (lines 97-272 of `niracare_pipeline.py`).  The
result exposes, on an abort, the raised error together with the session
state at the moment of the raise.  `print` statements are elided except
where their attribute accesses change control flow: the routing `try`
block (whose print failure is absorbed exactly like a routing failure) and
the final summary block (which can raise after every stage succeeded). -/
def run_niracare_demo (agents : Agents) (raw_text : List Char) :
    Except (PipeErr × NiraSession) NiraSession :=
  let session0 : NiraSession := { raw_text := raw_text }
  match agents.intake raw_text with
  | .error e => .error (e, session0)
  | .ok intake =>
    let s1 := { session0 with intake_json := intake }
    match agents.clarifier raw_text intake with
    | .error e => .error (e, s1)
    | .ok clarifier_output =>
      match getQuestions clarifier_output with
      | .error e => .error (e, s1)
      | .ok questions =>
        let s2 := { s1 with clarifier_questions := questions }
        let answers := auto_answer_clarifier_questions questions
        let s3 := { s2 with clarifier_answers := answers }
        match agents.summary raw_text intake answers with
        | .error e => .error (e, s3)
        | .ok note =>
          let s4 := { s3 with doctor_note := note }
          let s5 :=
            match agents.routing raw_text intake with
            | .error _ => { s4 with routing_guidance := .jobj [] }
            | .ok rv =>
              if routingPrintOk rv then { s4 with routing_guidance := rv }
              else { s4 with routing_guidance := .jobj [] }
          match agents.evalNote note with
          | .error e => .error (e, s5)
          | .ok ev =>
            let s6 := { s5 with eval_result := ev }
            match finalPrints s6 with
            | some e => .error (e, s6)
            | none => .ok s6

/-- `run_niracare_with_user_answers` (lines 275-314 of
`niracare_pipeline.py`): Intake, Clarifier, the caller's answers taken
verbatim, Summary, Eval.  The source contains no Routing call and no
`print` statement. -/
def run_niracare_with_user_answers (agents : Agents) (raw_text : List Char)
    (user_answers : List (List Char × List Char)) :
    Except (PipeErr × NiraSession) NiraSession :=
  let session0 : NiraSession := { raw_text := raw_text }
  match agents.intake raw_text with
  | .error e => .error (e, session0)
  | .ok intake =>
    let s1 := { session0 with intake_json := intake }
    match agents.clarifier raw_text intake with
    | .error e => .error (e, s1)
    | .ok clarifier_output =>
      match getQuestions clarifier_output with
      | .error e => .error (e, s1)
      | .ok questions =>
        let s2 := { s1 with clarifier_questions := questions }
        let s3 := { s2 with clarifier_answers := user_answers }
        match agents.summary raw_text intake user_answers with
        | .error e => .error (e, s3)
        | .ok note =>
          let s4 := { s3 with doctor_note := note }
          match agents.evalNote note with
          | .error e => .error (e, s4)
          | .ok ev => .ok { s4 with eval_result := ev }

/-! ## Concrete fixtures used by witnesses and counterexamples -/

def rawEx : List Char := ('h' :: 'e' :: 'a' :: 'd' :: 'a' :: 'c' :: 'h' :: 'e' :: 's' :: [])

def q1 : List Char := ('Q' :: '1' :: [])

def okIntake : JValue := .jobj [(symptomsKey, .jarr [])]

def scoreKey : List Char := ('s' :: 'c' :: 'o' :: 'r' :: 'e' :: [])

def urgencyKey : List Char :=
  ('u' :: 'r' :: 'g' :: 'e' :: 'n' :: 'c' :: 'y' :: '_' :: 'n' :: 'o' :: 't' :: 'e' :: [])

def okEval : JValue := .jobj [(scoreKey, .jnum ['8'])]

def noteEx : List Char := ('n' :: 'o' :: 't' :: 'e' :: [])

/-- A well-behaved stage environment: every stage succeeds with a
contract-conforming value and one clarifier question. -/
def agentsBase : Agents where
  intake := fun _ => .ok okIntake
  clarifier := fun _ _ => .ok (.jobj [(questionsKey, .jarr [.jstr q1])])
  summary := fun _ _ _ => .ok noteEx
  routing := fun _ _ => .ok (.jobj [])
  evalNote := fun _ => .ok okEval

/-- Like `agentsBase` but the Routing stage raises. -/
def agentsRoutingFail : Agents :=
  { agentsBase with routing := fun _ _ => .error (.serviceError 0) }

/-- Like `agentsBase` but the Routing stage succeeds with a non-empty
structured result. -/
def agentsRoutingRich : Agents :=
  { agentsBase with
    routing := fun _ _ => .ok (.jobj [(urgencyKey, .jstr ('u' :: []))]) }

/-- Like `agentsBase` but the Clarifier reply parses to an object with no
`questions` key. -/
def agentsNoQuestionsKey : Agents :=
  { agentsBase with clarifier := fun _ _ => .ok (.jobj [(scoreKey, .jnull)]) }

/-- Like `agentsBase` but the Clarifier reports an empty question list. -/
def agentsNoQuestions : Agents :=
  { agentsBase with clarifier := fun _ _ => .ok (.jobj [(questionsKey, .jarr [])]) }

def agentsIntakeFail : Agents :=
  { agentsBase with intake := fun _ => .error .emptyResponse }

def agentsClarifierFail : Agents :=
  { agentsBase with clarifier := fun _ _ => .error (.formatError ['x']) }

def agentsSummaryFail : Agents :=
  { agentsBase with summary := fun _ _ _ => .error .emptyResponse }

def agentsEvalFail : Agents :=
  { agentsBase with evalNote := fun _ => .error (.serviceError 1) }

/-- Both the Routing and the Eval stage raise: the Routing failure is
absorbed and then Eval aborts the run. -/
def agentsRoutingEvalFail : Agents :=
  { agentsBase with
    routing := fun _ _ => .error (.serviceError 0)
    evalNote := fun _ => .error (.serviceError 1) }

/-! ## Helper lemmas -/

theorem dictGet_dictInsert {β : Type} (d : List (List Char × β)) (k q : List Char) (v : β) :
    dictGet q (dictInsert d k v) = if q = k then some v else dictGet q d := by
  induction d with
  | nil =>
    simp only [dictInsert, dictGet]
    by_cases h : k = q
    · subst h; simp
    · rw [if_neg h, if_neg (fun hh => h hh.symm)]
  | cons p rest ih =>
    simp only [dictInsert]
    by_cases hpk : p.1 = k
    · rw [if_pos hpk]
      simp only [dictGet]
      by_cases hkq : k = q
      · subst hkq; simp [hpk]
      · rw [if_neg hkq, if_neg (fun hh => hkq hh.symm), if_neg (hpk ▸ hkq)]
    · rw [if_neg hpk]
      simp only [dictGet]
      by_cases hpq : p.1 = q
      · have hqk : ¬q = k := fun h => hpk (hpq.trans h)
        rw [if_pos hpq, if_neg hqk, if_pos hpq]
      · simp only [if_neg hpq]
        rw [ih]

theorem keys_dictInsert {β : Type} (d : List (List Char × β)) (k : List Char) (v : β) :
    (dictInsert d k v).map Prod.fst =
      if k ∈ d.map Prod.fst then d.map Prod.fst else d.map Prod.fst ++ [k] := by
  induction d with
  | nil => simp [dictInsert]
  | cons p rest ih =>
    by_cases hpk : p.1 = k
    · subst hpk
      simp only [dictInsert, if_pos rfl, List.map_cons]
      rw [if_pos trivial, List.map_cons, if_pos (List.mem_cons_self _ _)]
    · simp only [dictInsert, if_neg hpk, List.map_cons]
      rw [ih]
      by_cases hk : k ∈ rest.map Prod.fst
      · rw [if_pos hk, if_pos (List.mem_cons_of_mem _ hk)]
      · have hnotc : k ∉ p.1 :: rest.map Prod.fst := by
          simp only [List.mem_cons]
          rintro (h | h)
          · exact hpk h.symm
          · exact hk h
        rw [if_neg hk, if_neg hnotc, List.cons_append]

theorem foldl_autoAnswer_lookup (qs : List (List Char)) :
    ∀ (acc : List (List Char × List Char)) (q : List Char),
      dictGet q (qs.foldl (fun answers question =>
          dictInsert answers question (templateFor question)) acc) =
        if q ∈ qs then some (templateFor q) else dictGet q acc := by
  induction qs with
  | nil => intro acc q; simp
  | cons q' qs' ih =>
    intro acc q
    rw [List.foldl_cons, ih]
    by_cases hmem : q ∈ qs'
    · rw [if_pos hmem, if_pos (List.mem_cons_of_mem _ hmem)]
    · rw [if_neg hmem, dictGet_dictInsert]
      by_cases hq : q = q'
      · subst hq; simp
      · rw [if_neg hq, if_neg (by simp [hq, hmem])]

theorem foldl_autoAnswer_keys (qs : List (List Char)) :
    ∀ (acc : List (List Char × List Char)) (q : List Char),
      (q ∈ ((qs.foldl (fun answers question =>
          dictInsert answers question (templateFor question)) acc).map Prod.fst)) ↔
        (q ∈ acc.map Prod.fst ∨ q ∈ qs) := by
  induction qs with
  | nil => intro acc q; simp
  | cons q' qs' ih =>
    intro acc q
    rw [List.foldl_cons, ih, keys_dictInsert]
    by_cases hk : q' ∈ acc.map Prod.fst
    · rw [if_pos hk]
      constructor
      · rintro (h | h)
        · exact Or.inl h
        · exact Or.inr (List.mem_cons_of_mem _ h)
      · rintro (h | h)
        · exact Or.inl h
        · rcases List.mem_cons.mp h with h | h
          · exact Or.inl (h ▸ hk)
          · exact Or.inr h
    · rw [if_neg hk]
      simp only [List.mem_append, List.mem_singleton, List.mem_cons]
      tauto

theorem foldl_autoAnswer_nodup (qs : List (List Char)) :
    ∀ (acc : List (List Char × List Char)), (acc.map Prod.fst).Nodup →
      ((qs.foldl (fun answers question =>
          dictInsert answers question (templateFor question)) acc).map Prod.fst).Nodup := by
  induction qs with
  | nil => intro acc h; simpa using h
  | cons q' qs' ih =>
    intro acc h
    rw [List.foldl_cons]
    refine ih _ ?_
    rw [keys_dictInsert]
    by_cases hk : q' ∈ acc.map Prod.fst
    · rwa [if_pos hk]
    · rw [if_neg hk]
      simp [List.nodup_append, h, hk]

/-- Appending a fresh key to an association list makes it visible to
`dictGet`. -/
theorem dictGet_append_fresh {β : Type} (d : List (List Char × β)) (k : List Char) (v : β)
    (h : dictGet k d = none) : dictGet k (d ++ [(k, v)]) = some v := by
  induction d with
  | nil => simp [dictGet]
  | cons p rest ih =>
    simp only [dictGet] at h ⊢
    by_cases hpk : p.1 = k
    · rw [if_pos hpk] at h; cases h
    · rw [if_neg hpk] at h ⊢
      exact ih h

/-! ### String-pipeline lemmas for the Response Normalizer -/

theorem pyStrip_subset (s : List Char) : pyStrip s ⊆ s := fun _ h =>
  (List.dropWhile_suffix isPyWs).subset ((List.rdropWhile_prefix isPyWs _).subset h)

theorem fenceOpen_subset (s : List Char) : fenceOpen s ⊆ s := by
  unfold fenceOpen
  split_ifs <;> intro c hc
  · exact (List.drop_suffix 7 s).subset hc
  · exact (List.drop_suffix 3 s).subset hc
  · exact hc

theorem fenceClose_subset (s : List Char) : fenceClose s ⊆ s := by
  unfold fenceClose
  split_ifs <;> intro c hc
  · exact (List.take_prefix _ s).subset hc
  · exact hc

theorem fenceBody_subset (s : List Char) : fenceBody s ⊆ s := fun _ h =>
  fenceOpen_subset s (fenceClose_subset (fenceOpen s) h)

theorem braceFree_of_subset {l' l : List Char} (hsub : l' ⊆ l) (h : braceFree l) :
    braceFree l' :=
  ⟨fun hm => h.1 (hsub hm), fun hm => h.2 (hsub hm)⟩

/-- Python `strip` is idempotent. -/
theorem pyStrip_idem (s : List Char) : pyStrip (pyStrip s) = pyStrip s := by
  unfold pyStrip
  have h1 : List.dropWhile isPyWs (List.rdropWhile isPyWs (List.dropWhile isPyWs s)) =
      List.rdropWhile isPyWs (List.dropWhile isPyWs s) := by
    apply List.dropWhile_eq_self_iff.mpr
    intro hl
    have hpre : List.rdropWhile isPyWs (List.dropWhile isPyWs s) <+:
        List.dropWhile isPyWs s := List.rdropWhile_prefix _ _
    have hlen : 0 < (List.dropWhile isPyWs s).length :=
      lt_of_lt_of_le hl hpre.length_le
    have hget := hpre.getElem hl
    rw [List.get_eq_getElem, hget]
    have := List.dropWhile_get_zero_not isPyWs s hlen
    rwa [List.get_eq_getElem] at this
  rw [h1, List.rdropWhile_idempotent]

/-- `dropWhile` passes over a prefix when the next element fails the
predicate. -/
theorem dropWhile_append_keep {α : Type} {p : α → Bool} (pre X : List α) (c : α)
    (hc : p c = false) :
    List.dropWhile p (pre ++ c :: X) = List.dropWhile p pre ++ (c :: X) := by
  rw [List.dropWhile_append]
  by_cases h : (List.dropWhile p pre).isEmpty
  · rw [if_pos h, List.dropWhile_cons, hc]
    simp [List.isEmpty_iff.mp h]
  · rw [if_neg h]

/-- `rdropWhile` passes over a suffix when the element before it fails the
predicate. -/
theorem rdropWhile_append_keep {α : Type} {p : α → Bool} (A post : List α) (c : α)
    (hc : p c = false) :
    List.rdropWhile p (A ++ c :: post) = A ++ c :: List.rdropWhile p post := by
  rw [List.rdropWhile, List.reverse_append, List.reverse_cons, List.append_assoc,
    List.singleton_append, dropWhile_append_keep _ _ _ hc, List.reverse_append,
    List.reverse_cons, List.reverse_reverse, ← List.rdropWhile, List.append_assoc,
    List.singleton_append]

/-- `strip` around a brace-delimited span touches only the prose affixes. -/
theorem pyStrip_split (pre mid post : List Char) :
    pyStrip (pre ++ ('{' :: mid ++ ['}']) ++ post) =
      List.dropWhile isPyWs pre ++ ('{' :: mid ++ ['}']) ++ List.rdropWhile isPyWs post := by
  unfold pyStrip
  have e1 : pre ++ ('{' :: mid ++ ['}']) ++ post = pre ++ '{' :: (mid ++ ['}'] ++ post) := by
    simp [List.append_assoc]
  rw [e1, dropWhile_append_keep _ _ _ (by decide)]
  have e2 : List.dropWhile isPyWs pre ++ '{' :: (mid ++ ['}'] ++ post) =
      (List.dropWhile isPyWs pre ++ '{' :: mid) ++ '}' :: post := by
    simp [List.append_assoc]
  rw [e2, rdropWhile_append_keep _ _ _ (by decide)]
  simp [List.append_assoc]

/-- A marker without `{` that is a prefix of prose followed by a brace span
lies inside the prose. -/
theorem marker_prefix_of_brace (marker pre X : List Char) (hm : '{' ∉ marker)
    (h : marker <+: pre ++ '{' :: X) : marker <+: pre := by
  rcases List.prefix_or_prefix_of_prefix h (List.prefix_append pre ('{' :: X)) with hc | hc
  · exact hc
  · obtain ⟨m', rfl⟩ := hc
    rw [List.prefix_append_right_inj] at h
    cases m' with
    | nil => simp
    | cons c m'' =>
      rw [List.cons_prefix_cons] at h
      exact absurd (by simp [h.1]) hm

/-- A marker without `}` that is a suffix of a brace span followed by prose
lies inside the prose. -/
theorem marker_suffix_of_brace (marker A post : List Char) (hm : '}' ∉ marker)
    (h : marker <:+ A ++ '}' :: post) : marker <:+ post := by
  rcases List.suffix_or_suffix_of_suffix h (List.suffix_append A ('}' :: post)) with hc | hc
  · rcases List.suffix_cons_iff.mp hc with hc2 | hc2
    · exact absurd (hc2 ▸ List.mem_cons_self '}' post) hm
    · exact hc2
  · exact absurd (List.IsSuffix.mem (List.mem_cons_self '}' post) hc) hm

/-- `fenceOpen` around a brace-delimited span removes at most a marker that
lies inside the brace-free leading prose. -/
theorem fenceOpen_split (pre mid post : List Char) (hpre : braceFree pre) :
    ∃ pre₂, braceFree pre₂ ∧
      fenceOpen (pre ++ ('{' :: mid ++ ['}']) ++ post) =
        pre₂ ++ ('{' :: mid ++ ['}']) ++ post := by
  have hshape : pre ++ ('{' :: mid ++ ['}']) ++ post = pre ++ '{' :: (mid ++ ['}'] ++ post) := by
    simp [List.append_assoc]
  unfold fenceOpen
  by_cases h7 : List.isPrefixOf ['`', '`', '`', 'j', 's', 'o', 'n']
      (pre ++ ('{' :: mid ++ ['}']) ++ post)
  · rw [if_pos h7]
    have hp : ['`', '`', '`', 'j', 's', 'o', 'n'] <+: pre := by
      apply marker_prefix_of_brace _ _ _ (by decide)
      rw [← hshape]
      exact List.isPrefixOf_iff_prefix.mp h7
    obtain ⟨pre₂, rfl⟩ := hp
    refine ⟨pre₂, braceFree_of_subset (fun c hc => List.mem_append_right _ hc) hpre, ?_⟩
    have e : ((['`', '`', '`', 'j', 's', 'o', 'n'] ++ pre₂) ++ ('{' :: mid ++ ['}'])) ++ post =
        ['`', '`', '`', 'j', 's', 'o', 'n'] ++ (pre₂ ++ ('{' :: mid ++ ['}']) ++ post) := by
      simp [List.append_assoc]
    rw [e, List.drop_left' (by decide)]
  · rw [if_neg h7]
    by_cases h3 : List.isPrefixOf ['`', '`', '`'] (pre ++ ('{' :: mid ++ ['}']) ++ post)
    · rw [if_pos h3]
      have hp : ['`', '`', '`'] <+: pre := by
        apply marker_prefix_of_brace _ _ _ (by decide)
        rw [← hshape]
        exact List.isPrefixOf_iff_prefix.mp h3
      obtain ⟨pre₂, rfl⟩ := hp
      refine ⟨pre₂, braceFree_of_subset (fun c hc => List.mem_append_right _ hc) hpre, ?_⟩
      have e : ((['`', '`', '`'] ++ pre₂) ++ ('{' :: mid ++ ['}'])) ++ post =
          ['`', '`', '`'] ++ (pre₂ ++ ('{' :: mid ++ ['}']) ++ post) := by
        simp [List.append_assoc]
      rw [e, List.drop_left' (by decide)]
    · rw [if_neg h3]
      exact ⟨pre, hpre, rfl⟩

/-- `fenceClose` around a brace-delimited span removes at most a marker that
lies inside the brace-free trailing prose. -/
theorem fenceClose_split (pre mid post : List Char) (hpost : braceFree post) :
    ∃ post₂, braceFree post₂ ∧
      fenceClose (pre ++ ('{' :: mid ++ ['}']) ++ post) =
        pre ++ ('{' :: mid ++ ['}']) ++ post₂ := by
  have hshape : pre ++ ('{' :: mid ++ ['}']) ++ post = (pre ++ '{' :: mid) ++ '}' :: post := by
    simp [List.append_assoc]
  unfold fenceClose
  by_cases h : List.isSuffixOf ['`', '`', '`'] (pre ++ ('{' :: mid ++ ['}']) ++ post)
  · rw [if_pos h]
    have hs : ['`', '`', '`'] <:+ post := by
      apply marker_suffix_of_brace _ (pre ++ '{' :: mid) _ (by decide)
      rw [← hshape]
      exact List.isSuffixOf_iff_suffix.mp h
    obtain ⟨post₂, rfl⟩ := hs
    refine ⟨post₂, braceFree_of_subset (fun c hc => List.mem_append_left _ hc) hpost, ?_⟩
    have e : pre ++ ('{' :: mid ++ ['}']) ++ (post₂ ++ ['`', '`', '`']) =
        (pre ++ ('{' :: mid ++ ['}']) ++ post₂) ++ ['`', '`', '`'] := by
      simp [List.append_assoc]
    rw [e]
    rw [List.take_left' (by simp [List.length_append]; omega)]
  · rw [if_neg h]
    exact ⟨post, hpost, rfl⟩

/-- The brace-span slice around a single brace-delimited span with
brace-free prose on both sides recovers exactly the span. -/
theorem braceSlice_split (pre mid post : List Char) (hpre : '{' ∉ pre) (hpost : '}' ∉ post) :
    braceSlice (pre ++ ('{' :: mid ++ ['}']) ++ post) = '{' :: mid ++ ['}'] := by
  unfold braceSlice
  have hshape1 : pre ++ ('{' :: mid ++ ['}']) ++ post = pre ++ '{' :: (mid ++ ['}'] ++ post) := by
    simp [List.append_assoc]
  have hfi : List.findIdx? (fun c => decide (c = '{'))
      (pre ++ ('{' :: mid ++ ['}']) ++ post) = some pre.length := by
    rw [hshape1, List.findIdx?_append]
    have hnone : List.findIdx? (fun c => decide (c = '{')) pre = none :=
      List.findIdx?_eq_none_iff.mpr (fun x hx => by
        simp only [decide_eq_false_iff_not]
        exact fun hxe => hpre (hxe ▸ hx))
    rw [hnone]
    simp [List.findIdx?_cons]
  have hshape2 : pre ++ ('{' :: mid ++ ['}']) ++ post = (pre ++ '{' :: mid) ++ '}' :: post := by
    simp [List.append_assoc]
  have hfj : List.findIdx? (fun c => decide (c = '}'))
      ((pre ++ ('{' :: mid ++ ['}']) ++ post).reverse) = some post.length := by
    rw [hshape2, List.reverse_append, List.reverse_cons, List.append_assoc,
      List.singleton_append, List.findIdx?_append]
    have hnone : List.findIdx? (fun c => decide (c = '}')) post.reverse = none :=
      List.findIdx?_eq_none_iff.mpr (fun x hx => by
        simp only [decide_eq_false_iff_not]
        exact fun hxe => hpost (hxe ▸ List.mem_reverse.mp hx))
    rw [hnone]
    simp [List.findIdx?_cons]
  rw [hfi, hfj]
  simp only [Option.map_some']
  have hlen : (pre ++ ('{' :: mid ++ ['}']) ++ post).length =
      pre.length + (mid.length + 2) + post.length := by
    simp [List.length_append]
    omega
  rw [hlen]
  have hj : pre.length + (mid.length + 2) + post.length - 1 - post.length =
      pre.length + (mid.length + 1) := by omega
  rw [hj]
  rw [if_pos (by omega : pre.length + (mid.length + 1) > pre.length)]
  rw [List.take_left' (by simp [List.length_append]; omega)]
  rw [List.drop_left' rfl]

/-- The Normalizer on brace-free prose around a single brace-delimited span
decodes exactly that span. -/
theorem extract_of_single_span (pre mid post : List Char) (v : JValue)
    (hpre : braceFree pre) (hpost : braceFree post)
    (hdec : jsonLoads ('{' :: mid ++ ['}']) = some v) :
    extract_json_from_response (pre ++ ('{' :: mid ++ ['}']) ++ post) = .ok v := by
  have hpre₁ : braceFree (List.dropWhile isPyWs pre) :=
    braceFree_of_subset (List.dropWhile_suffix isPyWs).subset hpre
  have hpost₁ : braceFree (List.rdropWhile isPyWs post) :=
    braceFree_of_subset (List.rdropWhile_prefix isPyWs post).subset hpost
  obtain ⟨pre₂, hpre₂, h2⟩ :=
    fenceOpen_split (List.dropWhile isPyWs pre) mid (List.rdropWhile isPyWs post) hpre₁
  obtain ⟨post₂, hpost₂, h3⟩ := fenceClose_split pre₂ mid (List.rdropWhile isPyWs post) hpost₁
  have hr3 : pyStrip (fenceBody (pyStrip (pre ++ ('{' :: mid ++ ['}']) ++ post))) =
      List.dropWhile isPyWs pre₂ ++ ('{' :: mid ++ ['}']) ++ List.rdropWhile isPyWs post₂ := by
    rw [pyStrip_split, fenceBody, h2, h3, pyStrip_split]
  have hA : '{' ∉ List.dropWhile isPyWs pre₂ := fun hm =>
    hpre₂.1 ((List.dropWhile_suffix isPyWs).subset hm)
  have hB : '}' ∉ List.rdropWhile isPyWs post₂ := fun hm =>
    hpost₂.2 ((List.rdropWhile_prefix isPyWs post₂).subset hm)
  unfold extract_json_from_response
  rw [hr3]
  simp only [braceSlice_split (List.dropWhile isPyWs pre₂) mid
    (List.rdropWhile isPyWs post₂) hA hB, hdec]

/-- When no `{` occurs in the candidate text, the brace-span slice leaves it
unchanged. -/
theorem braceSlice_no_brace (r3 : List Char) (h : '{' ∉ r3) : braceSlice r3 = r3 := by
  unfold braceSlice
  have hfi : List.findIdx? (fun c => decide (c = '{')) r3 = none :=
    List.findIdx?_eq_none_iff.mpr (fun x hx => by
      simp only [decide_eq_false_iff_not]
      exact fun hxe => h (hxe ▸ hx))
  rw [hfi]

theorem not_prefix7_of_not_prefix3 (x : List Char)
    (h : List.isPrefixOf ['`', '`', '`'] x = false) :
    List.isPrefixOf ['`', '`', '`', 'j', 's', 'o', 'n'] x = false := by
  by_contra hcon
  rw [Bool.not_eq_false] at hcon
  have h7 := List.isPrefixOf_iff_prefix.mp hcon
  have h3 : ['`', '`', '`'] <+: x :=
    List.IsPrefix.trans ⟨['j', 's', 'o', 'n'], rfl⟩ h7
  rw [← List.isPrefixOf_iff_prefix] at h3
  exact Bool.noConfusion (h3.symm.trans h)

/-- Python `strip` of a string bracketed by single whitespace characters. -/
theorem pyStrip_ws_wrap (s : List Char) : pyStrip ('\n' :: (s ++ ['\n'])) = pyStrip s := by
  unfold pyStrip
  rw [List.dropWhile_cons, if_pos (by decide), List.dropWhile_append]
  by_cases h : (List.dropWhile isPyWs s).isEmpty
  · rw [if_pos h]
    have hs : List.dropWhile isPyWs s = [] := List.isEmpty_iff.mp h
    rw [hs]
    have hn : List.dropWhile isPyWs ['\n'] = ([] : List Char) := by decide
    rw [hn]
  · rw [if_neg h]
    exact List.rdropWhile_concat_pos _ _ '\n' (by decide)

/-- Python `strip` does nothing to a fenced reply (it starts and ends with a
backtick). -/
theorem pyStrip_wrapJson (s : List Char) : pyStrip (wrapJson s) = wrapJson s := by
  unfold pyStrip wrapJson
  have e : (['`', '`', '`', 'j', 's', 'o', 'n', '\n'] ++ s ++ ['\n', '`', '`', '`']) =
      ['`', '`', '`', 'j', 's', 'o', 'n', '\n'] ++ (s ++ ['\n', '`', '`', '`']) :=
    List.append_assoc _ _ _
  rw [e, List.dropWhile_append, if_neg (by decide)]
  have hd : List.dropWhile isPyWs ['`', '`', '`', 'j', 's', 'o', 'n', '\n'] =
      ['`', '`', '`', 'j', 's', 'o', 'n', '\n'] := by decide
  rw [hd]
  have e2 : ['`', '`', '`', 'j', 's', 'o', 'n', '\n'] ++ (s ++ ['\n', '`', '`', '`']) =
      (['`', '`', '`', 'j', 's', 'o', 'n', '\n'] ++ s ++ ['\n', '`', '`']) ++ '`' :: [] := by
    simp [List.append_assoc]
  rw [e2, rdropWhile_append_keep _ _ _ (by decide), List.rdropWhile_nil]

/-- Opening-fence stripping on a `json`-tagged fenced reply. -/
theorem fenceOpen_wrapJson (s : List Char) :
    fenceOpen (wrapJson s) = '\n' :: (s ++ ['\n', '`', '`', '`']) := by
  unfold fenceOpen wrapJson
  have e : (['`', '`', '`', 'j', 's', 'o', 'n', '\n'] ++ s ++ ['\n', '`', '`', '`']) =
      ['`', '`', '`', 'j', 's', 'o', 'n'] ++ ('\n' :: (s ++ ['\n', '`', '`', '`'])) := by
    simp [List.append_assoc]
  rw [if_pos (List.isPrefixOf_iff_prefix.mpr ⟨'\n' :: (s ++ ['\n', '`', '`', '`']), e.symm⟩)]
  rw [e, List.drop_left' (by decide)]

/-- Closing-fence stripping after the opening fence was removed. -/
theorem fenceClose_after_open (s : List Char) :
    fenceClose ('\n' :: (s ++ ['\n', '`', '`', '`'])) = '\n' :: (s ++ ['\n']) := by
  unfold fenceClose
  have e : '\n' :: (s ++ ['\n', '`', '`', '`']) =
      ('\n' :: (s ++ ['\n'])) ++ ['`', '`', '`'] := by
    simp [List.append_assoc]
  rw [if_pos (List.isSuffixOf_iff_suffix.mpr ⟨'\n' :: (s ++ ['\n']), e.symm⟩)]
  rw [e, List.take_left' (by simp [List.length_append])]

/-- The final summary print block completes when the intake result is an
object with a sized symptom list and the routing field is an object with a
sized doctor list (the eval result being an object). -/
theorem finalPrints_ok {raw note : List Char} {ikvs ekvs : List (List Char × JValue)}
    {qs : List (List Char)} {ans : List (List Char × List Char)}
    (rkvs : List (List Char × JValue))
    (hSy : sizedJ (dictGetD symptomsKey ikvs (.jarr [])) = true)
    (hRD : sizedJ (dictGetD doctorsKey rkvs (.jarr [])) = true) :
    finalPrints
      { raw_text := raw, intake_json := .jobj ikvs, clarifier_questions := qs,
        clarifier_answers := ans, doctor_note := note, routing_guidance := .jobj rkvs,
        eval_result := .jobj ekvs } = none := by
  simp [finalPrints, hSy, hRD]

/-! ## Claims -/

/-- Claim C4, counterexample.  The claim says supplied-answer mode assigns
a default placeholder to every clarifier question absent from the caller's
mapping, so that the answers mapping covers all questions.  On a run where
the Clarifier produces the question `Q1` and the caller supplies the empty
mapping, the resulting Session Record's answers mapping is empty: `Q1`
receives no answer at all. -/
theorem C4_cex :
    run_niracare_with_user_answers agentsBase rawEx [] = .ok
      { raw_text := rawEx, intake_json := okIntake, clarifier_questions := [q1],
        clarifier_answers := [], doctor_note := noteEx,
        routing_guidance := .jobj [], eval_result := okEval } ∧
    dictGet q1 ([] : List (List Char × List Char)) = none :=
  ⟨rfl, rfl⟩

/-- Claim C4, amended: in supplied-answer mode the orchestrator stores the
caller's question-to-answer mapping verbatim as the entire answers mapping;
clarifier questions absent from the mapping receive no answer (no default
placeholder is assigned), so the answers mapping need not cover the
clarifier questions. -/
theorem C4_user_answers_used_verbatim (agents : Agents) (raw : List Char)
    (ua : List (List Char × List Char)) (iv co : JValue) (qs : List (List Char))
    (note : List Char) (ev : JValue)
    (hI : agents.intake raw = .ok iv) (hC : agents.clarifier raw iv = .ok co)
    (hQ : getQuestions co = .ok qs) (hS : agents.summary raw iv ua = .ok note)
    (hE : agents.evalNote note = .ok ev) :
    run_niracare_with_user_answers agents raw ua = .ok
      { raw_text := raw, intake_json := iv, clarifier_questions := qs,
        clarifier_answers := ua, doctor_note := note,
        routing_guidance := .jobj [], eval_result := ev } := by
  simp only [run_niracare_with_user_answers, hI, hC, hQ, hS, hE]

/-- Claim C4, witness for the amended theorem at a concrete run: the
caller's one-entry mapping is stored verbatim. -/
theorem C4_user_answers_used_verbatim_witness :
    run_niracare_with_user_answers agentsBase rawEx [(q1, ['a'])] = .ok
      { raw_text := rawEx, intake_json := okIntake, clarifier_questions := [q1],
        clarifier_answers := [(q1, ['a'])], doctor_note := noteEx,
        routing_guidance := .jobj [], eval_result := okEval } :=
  C4_user_answers_used_verbatim agentsBase rawEx [(q1, ['a'])] okIntake
    (.jobj [(questionsKey, .jarr [.jstr q1])]) [q1] noteEx okEval rfl rfl rfl rfl rfl

/-- Claim C5, counterexample.  The claim says supplied-answer mode still
calls the Routing stage and stores its successful result.  On a run whose
Routing stage would succeed with a non-empty structured result, the
supplied-answer entry point finishes with the routing field still holding
the empty default, different from that result. -/
theorem C5_cex :
    agentsRoutingRich.routing rawEx okIntake = .ok (.jobj [(urgencyKey, .jstr ['u'])]) ∧
    run_niracare_with_user_answers agentsRoutingRich rawEx [] = .ok
      { raw_text := rawEx, intake_json := okIntake, clarifier_questions := [q1],
        clarifier_answers := [], doctor_note := noteEx,
        routing_guidance := .jobj [], eval_result := okEval } ∧
    JValue.jobj [(urgencyKey, .jstr ['u'])] ≠ JValue.jobj [] :=
  ⟨rfl, rfl, by simp⟩

/-- Claim C5, amended: only auto-answer mode performs the six-step sequence
including Routing.  The supplied-answer entry point runs five steps
(Intake, Clarifier, caller-supplied answers, Summary, Eval): its result
does not depend on the Routing stage at all, and any completed run leaves
the Session Record's routing field at its empty default. -/
theorem C5_supplied_mode_never_calls_routing (agents : Agents) (raw : List Char)
    (ua : List (List Char × List Char)) :
    (∀ f, run_niracare_with_user_answers { agents with routing := f } raw ua =
        run_niracare_with_user_answers agents raw ua) ∧
    (∀ s, run_niracare_with_user_answers agents raw ua = .ok s →
        s.routing_guidance = .jobj []) := by
  refine ⟨fun f => rfl, fun s h => ?_⟩
  cases hI : agents.intake raw with
  | error e => simp [run_niracare_with_user_answers, hI] at h
  | ok iv =>
    cases hC : agents.clarifier raw iv with
    | error e => simp [run_niracare_with_user_answers, hI, hC] at h
    | ok co =>
      cases hQ : getQuestions co with
      | error e => simp [run_niracare_with_user_answers, hI, hC, hQ] at h
      | ok qs =>
        cases hS : agents.summary raw iv ua with
        | error e => simp [run_niracare_with_user_answers, hI, hC, hQ, hS] at h
        | ok note =>
          cases hE : agents.evalNote note with
          | error e => simp [run_niracare_with_user_answers, hI, hC, hQ, hS, hE] at h
          | ok ev =>
            simp only [run_niracare_with_user_answers, hI, hC, hQ, hS, hE] at h
            cases h
            rfl

/-- Claim C5, witness for the amended theorem: at a concrete completed
supplied-answer run, the routing field of the returned Session Record is
the empty default. -/
theorem C5_supplied_mode_never_calls_routing_witness :
    ({ raw_text := rawEx, intake_json := okIntake, clarifier_questions := [q1],
        clarifier_answers := [], doctor_note := noteEx,
        routing_guidance := .jobj [], eval_result := okEval } :
      NiraSession).routing_guidance = JValue.jobj [] :=
  (C5_supplied_mode_never_calls_routing agentsBase rawEx []).2 _ rfl

/-- Claim C1: in auto-answer mode, if the Routing stage raises any error
while all other stages succeed, the run does not abort: the returned
Session Record has an empty routing result and holds the Eval stage's
result. -/
theorem C1_routing_failure_absorbed (agents : Agents) (raw : List Char)
    (ikvs : List (List Char × JValue)) (co : JValue) (qs : List (List Char))
    (note : List Char) (ekvs : List (List Char × JValue)) (e : PipeErr)
    (hI : agents.intake raw = .ok (.jobj ikvs))
    (hSy : sizedJ (dictGetD symptomsKey ikvs (.jarr [])) = true)
    (hC : agents.clarifier raw (.jobj ikvs) = .ok co)
    (hQ : getQuestions co = .ok qs)
    (hS : agents.summary raw (.jobj ikvs) (auto_answer_clarifier_questions qs) = .ok note)
    (hR : agents.routing raw (.jobj ikvs) = .error e)
    (hE : agents.evalNote note = .ok (.jobj ekvs)) :
    run_niracare_demo agents raw = .ok
      { raw_text := raw, intake_json := .jobj ikvs, clarifier_questions := qs,
        clarifier_answers := auto_answer_clarifier_questions qs, doctor_note := note,
        routing_guidance := .jobj [], eval_result := .jobj ekvs } := by
  simp only [run_niracare_demo, hI, hC, hQ, hS, hR, hE]
  rw [finalPrints_ok [] hSy rfl]

/-- Claim C1, witness: a concrete run in which only Routing fails finishes
with an empty routing result and the Eval result in place. -/
theorem C1_routing_failure_absorbed_witness :
    run_niracare_demo agentsRoutingFail rawEx = .ok
      { raw_text := rawEx, intake_json := okIntake, clarifier_questions := [q1],
        clarifier_answers := auto_answer_clarifier_questions [q1], doctor_note := noteEx,
        routing_guidance := .jobj [], eval_result := okEval } :=
  C1_routing_failure_absorbed agentsRoutingFail rawEx [(symptomsKey, .jarr [])]
    (.jobj [(questionsKey, .jarr [.jstr q1])]) [q1] noteEx [(scoreKey, .jnum ['8'])]
    (.serviceError 0) rfl rfl rfl rfl rfl rfl rfl

/-- Claim C2: a failure of the Intake, Clarifier, Summary, or Eval stage is
raised to the caller unchanged, and at the moment of the raise the Session
Record holds exactly the results of the stages completed before the failing
stage, all later-stage fields still at their initial empty defaults.  The
Eval case covers every Routing outcome: the routing field holds the
Routing result when that stage succeeded and rendered, and the empty
default when its failure was absorbed. -/
theorem C2_fatal_failure_leaves_prefix_state (agents : Agents) (raw : List Char) :
    (∀ e, agents.intake raw = .error e →
      run_niracare_demo agents raw = .error (e, { raw_text := raw })) ∧
    (∀ iv e, agents.intake raw = .ok iv → agents.clarifier raw iv = .error e →
      run_niracare_demo agents raw = .error (e, { raw_text := raw, intake_json := iv })) ∧
    (∀ iv co qs e, agents.intake raw = .ok iv → agents.clarifier raw iv = .ok co →
      getQuestions co = .ok qs →
      agents.summary raw iv (auto_answer_clarifier_questions qs) = .error e →
      run_niracare_demo agents raw = .error (e,
        { raw_text := raw, intake_json := iv, clarifier_questions := qs,
          clarifier_answers := auto_answer_clarifier_questions qs })) ∧
    (∀ iv co qs note rv' e, agents.intake raw = .ok iv → agents.clarifier raw iv = .ok co →
      getQuestions co = .ok qs →
      agents.summary raw iv (auto_answer_clarifier_questions qs) = .ok note →
      (match agents.routing raw iv with
        | .error _ => JValue.jobj []
        | .ok rv => if routingPrintOk rv then rv else .jobj []) = rv' →
      agents.evalNote note = .error e →
      run_niracare_demo agents raw = .error (e,
        { raw_text := raw, intake_json := iv, clarifier_questions := qs,
          clarifier_answers := auto_answer_clarifier_questions qs, doctor_note := note,
          routing_guidance := rv' })) := by
  refine ⟨fun e hI => ?_, fun iv e hI hC => ?_, fun iv co qs e hI hC hQ hS => ?_,
    fun iv co qs note rv' e hI hC hQ hS hrv hE => ?_⟩
  · simp only [run_niracare_demo, hI]
  · simp only [run_niracare_demo, hI, hC]
  · simp only [run_niracare_demo, hI, hC, hQ, hS]
  · subst hrv
    cases hR : agents.routing raw iv with
    | error er =>
      simp only [hR]
      simp only [run_niracare_demo, hI, hC, hQ, hS, hR, hE]
    | ok rv =>
      cases hp : routingPrintOk rv with
      | true =>
        simp only [hR, hp, if_true]
        simp only [run_niracare_demo, hI, hC, hQ, hS, hR, hp, if_true, hE]
      | false =>
        simp only [hR, hp, Bool.false_eq_true, if_false]
        simp only [run_niracare_demo, hI, hC, hQ, hS, hR, hp, Bool.false_eq_true,
          if_false, hE]

/-- Claim C2, witness: concrete runs failing at each of the four fatal
stages, each aborting with exactly the prefix of the Session Record
populated. -/
theorem C2_fatal_failure_leaves_prefix_state_witness :
    run_niracare_demo agentsIntakeFail rawEx =
      .error (.emptyResponse, { raw_text := rawEx }) ∧
    run_niracare_demo agentsClarifierFail rawEx =
      .error (.formatError ['x'], { raw_text := rawEx, intake_json := okIntake }) ∧
    run_niracare_demo agentsSummaryFail rawEx = .error (.emptyResponse,
      { raw_text := rawEx, intake_json := okIntake, clarifier_questions := [q1],
        clarifier_answers := auto_answer_clarifier_questions [q1] }) ∧
    run_niracare_demo agentsEvalFail rawEx = .error (.serviceError 1,
      { raw_text := rawEx, intake_json := okIntake, clarifier_questions := [q1],
        clarifier_answers := auto_answer_clarifier_questions [q1], doctor_note := noteEx,
        routing_guidance := .jobj [] }) ∧
    run_niracare_demo agentsRoutingEvalFail rawEx = .error (.serviceError 1,
      { raw_text := rawEx, intake_json := okIntake, clarifier_questions := [q1],
        clarifier_answers := auto_answer_clarifier_questions [q1], doctor_note := noteEx,
        routing_guidance := .jobj [] }) :=
  ⟨(C2_fatal_failure_leaves_prefix_state agentsIntakeFail rawEx).1 .emptyResponse rfl,
    (C2_fatal_failure_leaves_prefix_state agentsClarifierFail rawEx).2.1 okIntake
      (.formatError ['x']) rfl rfl,
    (C2_fatal_failure_leaves_prefix_state agentsSummaryFail rawEx).2.2.1 okIntake
      (.jobj [(questionsKey, .jarr [.jstr q1])]) [q1] .emptyResponse rfl rfl rfl rfl,
    (C2_fatal_failure_leaves_prefix_state agentsEvalFail rawEx).2.2.2 okIntake
      (.jobj [(questionsKey, .jarr [.jstr q1])]) [q1] noteEx (.jobj [])
      (.serviceError 1) rfl rfl rfl rfl rfl rfl,
    (C2_fatal_failure_leaves_prefix_state agentsRoutingEvalFail rawEx).2.2.2 okIntake
      (.jobj [(questionsKey, .jarr [.jstr q1])]) [q1] noteEx (.jobj [])
      (.serviceError 1) rfl rfl rfl rfl rfl rfl⟩

/-- Claim C6: auto-answer mode produces a mapping with exactly one
placeholder answer per question — the keys are exactly the questions,
without duplicates, and every question maps to the fixed template
referencing it — and for the empty question list the mapping is empty and
the orchestrator proceeds to the Summary stage without requesting input. -/
theorem C6_auto_answers_per_question (qs : List (List Char)) :
    (∀ q, q ∈ qs →
      dictGet q (auto_answer_clarifier_questions qs) = some (templateFor q)) ∧
    ((auto_answer_clarifier_questions qs).map Prod.fst).Nodup ∧
    (∀ q, q ∈ (auto_answer_clarifier_questions qs).map Prod.fst ↔ q ∈ qs) ∧
    auto_answer_clarifier_questions [] = [] ∧
    (∀ (agents : Agents) (raw : List Char) (ikvs ekvs : List (List Char × JValue))
      (co : JValue) (note : List Char),
      agents.intake raw = .ok (.jobj ikvs) →
      sizedJ (dictGetD symptomsKey ikvs (.jarr [])) = true →
      agents.clarifier raw (.jobj ikvs) = .ok co →
      getQuestions co = .ok [] →
      agents.summary raw (.jobj ikvs) [] = .ok note →
      agents.routing raw (.jobj ikvs) = .ok (.jobj []) →
      agents.evalNote note = .ok (.jobj ekvs) →
      run_niracare_demo agents raw = .ok
        { raw_text := raw, intake_json := .jobj ikvs, clarifier_questions := [],
          clarifier_answers := [], doctor_note := note,
          routing_guidance := .jobj [], eval_result := .jobj ekvs }) := by
  refine ⟨fun q hq => ?_, ?_, fun q => ?_, rfl,
    fun agents raw ikvs ekvs co note hI hSy hC hQ hS hR hE => ?_⟩
  · rw [auto_answer_clarifier_questions, foldl_autoAnswer_lookup, if_pos hq]
  · exact foldl_autoAnswer_nodup qs [] (by simp)
  · rw [auto_answer_clarifier_questions, foldl_autoAnswer_keys]
    simp
  · have hRP : routingPrintOk (.jobj []) = true := by
      simp [routingPrintOk, blockOk, dictGetD, dictGet, pyTruthy]
    simp only [run_niracare_demo, hI, hC, hQ, hS, hR, hRP, if_true, hE,
      auto_answer_clarifier_questions, List.foldl_nil]
    rw [finalPrints_ok [] hSy rfl]

/-- Claim C6, witness: the singleton question list gets exactly its
templated answer, and a concrete empty-question run proceeds to Summary
and completes. -/
theorem C6_auto_answers_per_question_witness :
    dictGet q1 (auto_answer_clarifier_questions [q1]) = some (templateFor q1) ∧
    run_niracare_demo agentsNoQuestions rawEx = .ok
      { raw_text := rawEx, intake_json := okIntake, clarifier_questions := [],
        clarifier_answers := [], doctor_note := noteEx,
        routing_guidance := .jobj [], eval_result := okEval } :=
  ⟨(C6_auto_answers_per_question [q1]).1 q1 (List.mem_singleton.mpr rfl),
    (C6_auto_answers_per_question []).2.2.2.2 agentsNoQuestions rawEx
      [(symptomsKey, .jarr [])] [(scoreKey, .jnum ['8'])]
      (.jobj [(questionsKey, .jarr [])]) noteEx rfl rfl rfl rfl rfl rfl rfl⟩

/-- Claim C9: every stage function fails with `EmptyResponseError` when the
Model Service returns no text at all, and each of the four structured
stages propagates a `FormatError` raised by the Normalizer unchanged. -/
theorem C9_stage_error_contract (raw note : List Char) (iv : JValue)
    (ans : List (List Char × List Char)) (r pv : List Char) :
    (run_intake_agent (fun _ => .ok []) raw = .error .emptyResponse) ∧
    (run_clarifier_agent (fun _ _ => .ok []) raw iv = .error .emptyResponse) ∧
    (run_summary_agent (fun _ _ _ => .ok []) raw iv ans = .error .emptyResponse) ∧
    (run_routing_agent (fun _ _ => .ok []) raw iv = .error .emptyResponse) ∧
    (run_eval_agent (fun _ => .ok []) note = .error .emptyResponse) ∧
    (r ≠ [] → extract_json_from_response r = .error (.formatError pv) →
      run_intake_agent (fun _ => .ok r) raw = .error (.formatError pv) ∧
      run_clarifier_agent (fun _ _ => .ok r) raw iv = .error (.formatError pv) ∧
      run_routing_agent (fun _ _ => .ok r) raw iv = .error (.formatError pv) ∧
      run_eval_agent (fun _ => .ok r) note = .error (.formatError pv)) := by
  refine ⟨rfl, rfl, rfl, rfl, rfl, fun hne hext => ?_⟩
  have hstage : (if r = [] then (throw PipeErr.emptyResponse : Except PipeErr JValue)
      else extract_json_from_response r) = .error (.formatError pv) := by
    rw [if_neg hne]; exact hext
  exact ⟨hstage, hstage, hstage, hstage⟩

/-- Claim C9, witness: with the undecodable one-character reply `x`, each
structured stage surfaces the Normalizer's `FormatError` carrying that
text, and the empty reply yields `EmptyResponseError`. -/
theorem C9_stage_error_contract_witness :
    run_intake_agent (fun _ => .ok []) rawEx = .error .emptyResponse ∧
    run_intake_agent (fun _ => .ok ['x']) rawEx = .error (.formatError ['x']) :=
  ⟨(C9_stage_error_contract rawEx noteEx okIntake [] ['x'] ['x']).1,
    ((C9_stage_error_contract rawEx noteEx okIntake [] ['x'] ['x']).2.2.2.2.2
      (by simp) rfl).1⟩

/-- Claim C10: when a successful Clarifier reply parses to an object with
no `questions` key, both orchestrator entry points proceed with an empty
question list instead of raising, and the run is indistinguishable from one
whose Clarifier reported an empty question list. -/
theorem C10_missing_questions_key_is_empty_list (agents : Agents) (raw : List Char)
    (ikvs ckvs ekvs : List (List Char × JValue)) (note note2 : List Char)
    (ev2 : JValue) (ua : List (List Char × List Char))
    (hI : agents.intake raw = .ok (.jobj ikvs))
    (hSy : sizedJ (dictGetD symptomsKey ikvs (.jarr [])) = true)
    (hC : agents.clarifier raw (.jobj ikvs) = .ok (.jobj ckvs))
    (hNoKey : dictGet questionsKey ckvs = none)
    (hS : agents.summary raw (.jobj ikvs) [] = .ok note)
    (hR : agents.routing raw (.jobj ikvs) = .ok (.jobj []))
    (hE : agents.evalNote note = .ok (.jobj ekvs))
    (hS2 : agents.summary raw (.jobj ikvs) ua = .ok note2)
    (hE2 : agents.evalNote note2 = .ok ev2) :
    run_niracare_demo agents raw = .ok
      { raw_text := raw, intake_json := .jobj ikvs, clarifier_questions := [],
        clarifier_answers := [], doctor_note := note,
        routing_guidance := .jobj [], eval_result := .jobj ekvs } ∧
    run_niracare_with_user_answers agents raw ua = .ok
      { raw_text := raw, intake_json := .jobj ikvs, clarifier_questions := [],
        clarifier_answers := ua, doctor_note := note2,
        routing_guidance := .jobj [], eval_result := ev2 } ∧
    run_niracare_demo
        { agents with clarifier := fun _ _ => .ok (.jobj (ckvs ++ [(questionsKey, .jarr [])])) }
        raw =
      run_niracare_demo agents raw := by
  have hQ : getQuestions (.jobj ckvs) = .ok [] := by
    simp only [getQuestions, dictGetD, hNoKey, Option.getD]
    rfl
  have hQ2 : getQuestions (.jobj (ckvs ++ [(questionsKey, .jarr [])])) = .ok [] := by
    simp only [getQuestions, dictGetD, dictGet_append_fresh ckvs questionsKey _ hNoKey,
      Option.getD]
    rfl
  have hRP : routingPrintOk (.jobj []) = true := by
    simp [routingPrintOk, blockOk, dictGetD, dictGet, pyTruthy]
  have hAuto : auto_answer_clarifier_questions [] = [] := rfl
  refine ⟨?_, ?_, ?_⟩
  · simp only [run_niracare_demo, hI, hC, hQ, hAuto, hS, hR, hRP, if_true, hE]
    rw [finalPrints_ok [] hSy rfl]
  · simp only [run_niracare_with_user_answers, hI, hC, hQ, hS2, hE2]
  · simp only [run_niracare_demo, hI, hC, hQ, hQ2, hAuto, hS, hR, hRP, if_true, hE]

/-- Claim C10, witness: a concrete run whose Clarifier reply lacks the
`questions` key completes in both entry points with an empty question
list. -/
theorem C10_missing_questions_key_is_empty_list_witness :
    run_niracare_demo agentsNoQuestionsKey rawEx = .ok
      { raw_text := rawEx, intake_json := okIntake, clarifier_questions := [],
        clarifier_answers := [], doctor_note := noteEx,
        routing_guidance := .jobj [], eval_result := okEval } ∧
    run_niracare_with_user_answers agentsNoQuestionsKey rawEx [] = .ok
      { raw_text := rawEx, intake_json := okIntake, clarifier_questions := [],
        clarifier_answers := [], doctor_note := noteEx,
        routing_guidance := .jobj [], eval_result := okEval } :=
  ⟨(C10_missing_questions_key_is_empty_list agentsNoQuestionsKey rawEx
      [(symptomsKey, .jarr [])] [(scoreKey, .jnull)] [(scoreKey, .jnum ['8'])]
      noteEx noteEx okEval [] rfl rfl rfl rfl rfl rfl rfl rfl rfl).1,
    (C10_missing_questions_key_is_empty_list agentsNoQuestionsKey rawEx
      [(symptomsKey, .jarr [])] [(scoreKey, .jnull)] [(scoreKey, .jnum ['8'])]
      noteEx noteEx okEval [] rfl rfl rfl rfl rfl rfl rfl rfl rfl).2.1⟩

/-- Claim C3, counterexample.  The claim says every reply with no `{`, and
every reply with unbalanced braces, makes the Normalizer fail.  But the
reply `[1, 2]` contains no `{` and is returned as a parsed array, and the
reply consisting of the characters of an object whose string value is a
brace has one `{` against two `}` (unbalanced) yet is parsed
successfully. -/
theorem C3_cex :
    ('{' ∉ (['[', '1', ',', ' ', '2', ']'] : List Char)) ∧
    extract_json_from_response ['[', '1', ',', ' ', '2', ']'] =
      .ok (.jarr [.jnum ['1'], .jnum ['2']]) ∧
    List.count '{' ['{', '"', 'a', '"', ':', ' ', '"', '}', '"', '}'] = 1 ∧
    List.count '}' ['{', '"', 'a', '"', ':', ' ', '"', '}', '"', '}'] = 2 ∧
    extract_json_from_response ['{', '"', 'a', '"', ':', ' ', '"', '}', '"', '}'] =
      .ok (.jobj [(['a'], .jstr ['}'])]) :=
  ⟨by decide, rfl, by decide, by decide, rfl⟩

/-- Claim C3, amended: the Normalizer fails with a `FormatError` exactly
when the candidate text is not decodable — for a reply with no `{` whose
fence-stripped text does not decode as a value, and in general for any
reply whose candidate text after fence stripping and brace-span slicing
does not decode.  (A reply with no `{` that is itself a decodable value,
or an unbalanced-brace reply whose first-`{`-to-last-`}` span decodes, is
returned successfully.) -/
theorem C3_undecodable_candidate_fails (s : List Char) :
    ('{' ∉ s →
      jsonLoads (pyStrip (fenceBody (pyStrip s))) = none →
      extract_json_from_response s =
        .error (.formatError ((pyStrip (fenceBody (pyStrip s))).take 200))) ∧
    (jsonLoads (braceSlice (pyStrip (fenceBody (pyStrip s)))) = none →
      extract_json_from_response s =
        .error (.formatError ((braceSlice (pyStrip (fenceBody (pyStrip s)))).take 200))) := by
  constructor
  · intro hs hload
    have h3 : '{' ∉ pyStrip (fenceBody (pyStrip s)) := fun hm =>
      hs (pyStrip_subset _ (fenceBody_subset _ (pyStrip_subset _ hm)))
    unfold extract_json_from_response
    simp only [braceSlice_no_brace _ h3, hload]
  · intro hload
    unfold extract_json_from_response
    simp only [hload]

/-- Claim C3, witness for the amended theorem: the brace-less, undecodable
reply `x` fails with a `FormatError` carrying the candidate preview. -/
theorem C3_undecodable_candidate_fails_witness :
    extract_json_from_response ['x'] =
      .error (.formatError ((pyStrip (fenceBody (pyStrip ['x']))).take 200)) :=
  (C3_undecodable_candidate_fails ['x']).1 (by decide) rfl

/-- Claim C7: for a reply wrapped in fenced-code markers with the `json`
tag, the Normalizer's output equals its output on the unwrapped reply
(stated for replies that do not themselves begin or end, once stripped,
with a fence marker — otherwise the two sides would strip different
fences). -/
theorem C7_fenced_reply_equals_unfenced (s : List Char)
    (h1 : List.isPrefixOf ['`', '`', '`'] (pyStrip s) = false)
    (h2 : List.isSuffixOf ['`', '`', '`'] (pyStrip s) = false) :
    extract_json_from_response (wrapJson s) = extract_json_from_response s := by
  have hopen : fenceOpen (pyStrip s) = pyStrip s := by
    unfold fenceOpen
    rw [not_prefix7_of_not_prefix3 _ h1, h1]
    simp
  have hclose : fenceClose (pyStrip s) = pyStrip s := by
    unfold fenceClose
    rw [h2]
    simp
  have hns : pyStrip (fenceBody (pyStrip s)) = pyStrip s := by
    rw [fenceBody, hopen, hclose, pyStrip_idem]
  have hw : pyStrip (fenceBody (pyStrip (wrapJson s))) = pyStrip s := by
    rw [pyStrip_wrapJson, fenceBody, fenceOpen_wrapJson, fenceClose_after_open,
      pyStrip_ws_wrap]
  unfold extract_json_from_response
  rw [hw, hns]

/-- Claim C7, witness: a concrete object reply wrapped in a tagged fence
normalizes to the same value as the bare reply. -/
theorem C7_fenced_reply_equals_unfenced_witness :
    extract_json_from_response (wrapJson ['{', '"', 'a', '"', ':', '1', '}']) =
      extract_json_from_response ['{', '"', 'a', '"', ':', '1', '}'] :=
  C7_fenced_reply_equals_unfenced ['{', '"', 'a', '"', ':', '1', '}'] (by decide) (by decide)

/-- Claim C8: a reply made of one brace-delimited span with decodable
content, preceded and followed by prose containing no braces, normalizes to
exactly the parsed value of that span — the prose is discarded and the
Normalizer does not fail. -/
theorem C8_single_span_is_extracted (pre mid post : List Char) (v : JValue)
    (hpre : braceFree pre) (hpost : braceFree post)
    (hdec : jsonLoads ('{' :: mid ++ ['}']) = some v) :
    extract_json_from_response (pre ++ ('{' :: mid ++ ['}']) ++ post) = .ok v :=
  extract_of_single_span pre mid post v hpre hpost hdec

/-- Claim C8, witness: prose around a concrete one-entry object reply is
discarded and the object is parsed. -/
theorem C8_single_span_is_extracted_witness :
    extract_json_from_response
        (('h' :: 'e' :: 'r' :: 'e' :: ':' :: ' ' :: []) ++
          ('{' :: ['"', 'a', '"', ':', ' ', '1'] ++ ['}']) ++
          (' ' :: 'b' :: 'y' :: 'e' :: '.' :: [])) =
      .ok (.jobj [(['a'], .jnum ['1'])]) :=
  C8_single_span_is_extracted ('h' :: 'e' :: 'r' :: 'e' :: ':' :: ' ' :: [])
    ['"', 'a', '"', ':', ' ', '1'] (' ' :: 'b' :: 'y' :: 'e' :: '.' :: [])
    (.jobj [(['a'], .jnum ['1'])]) ⟨by decide, by decide⟩ ⟨by decide, by decide⟩ rfl

end NiraCare
